import Mathlib

/-!
Container image provisioning job (`units/building_container_image.go`).

A shallow embedding of `buildingContainerImageJob`: its constructor
`NewBuildingContainerImageJob` and its `Run` method.  `Run` talks to the host
store and to the cloud provider; every such call is logged in a trace and its
result is supplied by a `Collaborators` record, so that the control flow of
`Run` (early returns, deferred calls) is the object of study.

Conventions.
* A Go `error` is carried by its message; `none` is the `nil` error.
* Deferred calls run in reverse order of registration when `Run` returns.
* `context.WithCancel` / `cancel` and the `grip` log lines have no effect on the
  job or the host and are left out of the trace.
-/

namespace Evergreen

/-! ## Library behaviour the job relies on -/

/-- A Go `error`: `none` is `nil`, `some msg` an error whose `Error()` is `msg`. -/
abbrev GoError := Option String

/-- The function `errors.Wrap` of `github.com/pkg/errors`: a `nil` error stays `nil`,
otherwise the message is put in front of the cause, separated by a colon. -/
def Wrap (err : GoError) (message : String) : GoError :=
  match err with
  | none => none
  | some cause => some (message ++ ": " ++ cause)

/-- The function `errors.Wrapf` of `github.com/pkg/errors`, applied to an already
formatted message: as `Wrap`, and in particular `nil` for a `nil` error. -/
def Wrapf (err : GoError) (formatted : String) : GoError :=
  Wrap err formatted

/-- One decimal digit as a character. -/
def digitChar (d : Nat) : Char := Char.ofNat (48 + d)

/-- Decimal rendering of a natural number, most significant digit first. -/
def fmtNat (n : Nat) : List Char :=
  if n = 0 then [Char.ofNat 48] else (Nat.digits 10 n).reverse.map digitChar

/-- The verb `%d` of `fmt.Sprintf` on a Go `int`: decimal, with a minus sign
for a negative number. -/
def fmtD (n : Int) : String :=
  String.mk (if n < 0 then Char.ofNat 45 :: fmtNat n.natAbs else fmtNat n.natAbs)

/-- Value of a decimal digit character. -/
def digitValue (c : Char) : Nat := c.toNat - 48

/-! ## Data model -/

/-- Modelled from the spec: the host states of section 4.3 (`evergreen` status
constants, declared outside src). -/
inductive HostStatus where
  | uninitialized
  | provisioning
  | running
  | terminated
  deriving DecidableEq, Repr

/-- Modelled from the spec: the actor constant `evergreen.User` handed to
`SetTerminated` (declared outside src; only its identity matters). -/
inductive Actor where
  | User
  deriving DecidableEq, Repr

/-- Modelled from the spec: the `host.Host` record (package `model/host` is not
under src), with the fields `Run` reads or writes.  `ContainerBuildAttempt` is a
Go `int`; `ContainerImages` is a `map[string]bool`, `none` being the nil map and
`some` an association list with one entry per key. -/
structure Host where
  Id : String
  Distro : String
  Status : HostStatus
  ContainerBuildAttempt : Int
  ContainerImages : Option (List (String × Bool))
  deriving DecidableEq, Repr

/-- Assignment `m[k] = v` on a Go map kept as an association list. -/
def mapSet (m : List (String × Bool)) (k : String) (v : Bool) : List (String × Bool) :=
  match m with
  | [] => [(k, v)]
  | (k0, v0) :: rest => if k0 = k then (k, v) :: rest else (k0, v0) :: mapSet rest k v

/-- Key membership in a Go map kept as an association list. -/
def mapHas (m : List (String × Bool)) (k : String) : Bool :=
  (m.lookup k).isSome

/-- Key membership in the built-image map of a host (a nil map has no key). -/
def Host.hasImage (h : Host) (k : String) : Bool :=
  match h.ContainerImages with
  | none => false
  | some m => mapHas m k

/-- The dependency manager set by `makeBuildingContainerImageJob`. -/
inductive Dependency where
  | Always
  deriving DecidableEq, Repr

/-- The part of amboy `job.Base` the job uses: id, type, dependency, recorded
errors and completion flag. -/
structure Base where
  TaskID : String
  JobTypeName : String
  JobTypeVersion : Nat
  dep : Option Dependency
  Errors : List String
  Completed : Bool
  deriving DecidableEq, Repr

/-- Uninterpreted `evergreen.Settings` handle. -/
structure Settings where
  handle : Nat
  deriving DecidableEq, Repr

/-- Uninterpreted `evergreen.Environment`; `Settings()` returns its settings. -/
structure Environment where
  Settings : Settings
  deriving DecidableEq, Repr

/-- The struct `buildingContainerImageJob` (lines 30-40). -/
structure buildingContainerImageJob where
  ParentID : String
  base : Base
  ImageURL : String
  Provider : String
  parent : Option Host
  env : Option Environment
  settings : Option Settings
  deriving DecidableEq, Repr

/-- Calls `Run` makes on its collaborators, in the order they happen. -/
inductive Call where
  | FindOneId (id : String)
  | GetEnvironment
  | SetTerminated (actor : Actor)
  | GetManager (provider : String)
  | ConvertContainerManager
  | BuildContainerImage (hostId : String) (imageURL : String)
  | Upsert (h : Host)
  | IncContainerBuildAttempt
  | MarkComplete
  deriving DecidableEq, Repr

/-- Results the collaborators give during one execution of `Run`.  Each call is
made at most once per execution, so one result per call is fully general. -/
structure Collaborators where
  FindOneId : Except String Host
  GetEnvironment : Environment
  SetTerminated : GoError
  GetManager : GoError
  ConvertContainerManager : GoError
  BuildContainerImage : GoError
  Upsert : GoError
  IncContainerBuildAttempt : GoError

/-! ## Host operations (package `model/host`) -/

/-- Modelled from the spec: `Host.IncContainerBuildAttempt` (package `model/host`
is not under src): on success the attempt counter is increased by one, on
failure the host is left as it was. -/
def Host.IncContainerBuildAttempt (h : Host) (result : GoError) : Host × GoError :=
  match result with
  | none => ({ h with ContainerBuildAttempt := h.ContainerBuildAttempt + 1 }, none)
  | some e => (h, some e)

/-- Modelled from the spec: `Host.SetTerminated` (package `model/host` is not under
src): on success the status becomes terminated, on failure the host is left as it
was. -/
def Host.SetTerminated (h : Host) (_actor : Actor) (result : GoError) : Host × GoError :=
  match result with
  | none => ({ h with Status := HostStatus.terminated }, none)
  | some e => (h, some e)

/-! ## The job -/

def buildingContainerImageJobName : String := "building-container-image"

def containerBuildRetries : Int := 5

/-- The method `AddError` of `job.Base`: a nil error is ignored, any other is
appended to the recorded errors. -/
def buildingContainerImageJob.AddError (j : buildingContainerImageJob) (err : GoError) :
    buildingContainerImageJob :=
  match err with
  | none => j
  | some msg => { j with base := { j.base with Errors := j.base.Errors ++ [msg] } }

/-- The method `HasErrors` of `job.Base`. -/
def buildingContainerImageJob.HasErrors (j : buildingContainerImageJob) : Bool :=
  0 < j.base.Errors.length

/-- The method `MarkComplete` of `job.Base`. -/
def buildingContainerImageJob.MarkComplete (j : buildingContainerImageJob) :
    buildingContainerImageJob :=
  { j with base := { j.base with Completed := true } }

/-- The method `ID` of `job.Base`. -/
def buildingContainerImageJob.ID (j : buildingContainerImageJob) : String :=
  j.base.TaskID

/-- Lines 42-54. -/
def makeBuildingContainerImageJob : buildingContainerImageJob :=
  { ParentID := ""
    base :=
      { TaskID := ""
        JobTypeName := buildingContainerImageJobName
        JobTypeVersion := 0
        dep := some Dependency.Always
        Errors := []
        Completed := false }
    ImageURL := ""
    Provider := ""
    parent := none
    env := none
    settings := none }

/-- Lines 56-67.  The environment argument is not used by the source. -/
def NewBuildingContainerImageJob (_env : Environment) (h : Host)
    (imageURL providerName : String) : buildingContainerImageJob :=
  let job := makeBuildingContainerImageJob
  let job := { job with parent := some h }
  let job := { job with ImageURL := imageURL }
  let job := { job with ParentID := h.Id }
  let job := { job with Provider := providerName }
  { job with
    base :=
      { job.base with
        TaskID :=
          buildingContainerImageJobName ++ "." ++ job.ParentID ++ ".attempt-"
            ++ fmtD h.ContainerBuildAttempt ++ "." ++ job.ImageURL } }

/-- Lines 76-86 of `Run`: fill the caches.  `FindOneId` is modelled from the spec
(`FindByID(id) -> Host | NotFound`): it yields a host or an error, never neither. -/
def resolve (w : Collaborators) (j : buildingContainerImageJob) :
    buildingContainerImageJob × List Call :=
  let s1 : buildingContainerImageJob × List Call :=
    match j.parent with
    | some _ => (j, [])
    | none =>
      match w.FindOneId with
      | Except.ok h => (({ j with parent := some h }).AddError none, [Call.FindOneId j.ParentID])
      | Except.error e =>
        (({ j with parent := none }).AddError (some e), [Call.FindOneId j.ParentID])
  let s2 : buildingContainerImageJob × List Call :=
    match s1.1.env with
    | some _ => s1
    | none => ({ s1.1 with env := some w.GetEnvironment }, s1.2 ++ [Call.GetEnvironment])
  match s2.1.settings, s2.1.env with
  | none, some e => ({ s2.1 with settings := some e.Settings }, s2.2)
  | _, _ => s2

/-- Lines 115-146 of `Run`: the statements after the deferred increment has been
registered, on the parent host `h` the job points to. -/
def attempt (w : Collaborators) (j : buildingContainerImageJob) (h : Host) :
    buildingContainerImageJob × List Call :=
  if h.ContainerBuildAttempt ≥ containerBuildRetries then
    let r := h.SetTerminated Actor.User w.SetTerminated
    (({ j with parent := some r.1 }).AddError
        (Wrapf r.2
          ("failed 5 times to build and download image \x27" ++ j.ImageURL
            ++ "\x27 on parent \x27" ++ h.Id ++ "\x27")),
      [Call.SetTerminated Actor.User])
  else
    match w.GetManager with
    | some e =>
      (j.AddError (Wrap (some e) "error getting Docker manager"), [Call.GetManager j.Provider])
    | none =>
      match w.ConvertContainerManager with
      | some e =>
        (j.AddError (Wrap (some e) "error getting Docker manager"),
          [Call.GetManager j.Provider, Call.ConvertContainerManager])
      | none =>
        match w.BuildContainerImage with
        | some e =>
          (j.AddError (Wrap (some e) "error building and downloading container image"),
            [Call.GetManager j.Provider, Call.ConvertContainerManager,
              Call.BuildContainerImage h.Id j.ImageURL])
        | none =>
          let images : List (String × Bool) :=
            match h.ContainerImages with
            | none => []
            | some m => m
          let h1 : Host := { h with ContainerImages := some (mapSet images j.ImageURL true) }
          let j1 : buildingContainerImageJob := { j with parent := some h1 }
          let calls : List Call :=
            [Call.GetManager j.Provider, Call.ConvertContainerManager,
              Call.BuildContainerImage h.Id j.ImageURL, Call.Upsert h1]
          match w.Upsert with
          | some e => (j1.AddError (Wrapf (some e) ("error upserting parent " ++ h1.Id)), calls)
          | none => (j1, calls)

/-- Lines 92-113 of `Run`: the deferred function.  It reads `j.parent` when it
runs, that is after `attempt`. -/
def deferredIncrement (w : Collaborators) (j : buildingContainerImageJob) :
    buildingContainerImageJob × List Call :=
  match j.parent with
  | none => (j, [])
  | some h =>
    let r := h.IncContainerBuildAttempt w.IncContainerBuildAttempt
    match r.2 with
    | some e => (({ j with parent := some r.1 }).AddError (some e), [Call.IncContainerBuildAttempt])
    | none => ({ j with parent := some r.1 }, [Call.IncContainerBuildAttempt])

/-- Lines 69-147: `Run`.  The result is the job after the run (its `parent` is the
host as the run left it) and the calls made, in order.  `MarkComplete` is
deferred first and so runs last; the increment is deferred at line 92, before
the retry check of line 115, and runs when any later statement returns.  The
branch with no errors and no parent is a nil dereference in the source; it
cannot be reached, since `resolve` records an error whenever it leaves the
parent unset. -/
def Run (w : Collaborators) (j : buildingContainerImageJob) :
    buildingContainerImageJob × List Call :=
  let s := resolve w j
  if s.1.HasErrors then
    (s.1.MarkComplete, s.2 ++ [Call.MarkComplete])
  else
    match s.1.parent with
    | none => (s.1.MarkComplete, s.2 ++ [Call.MarkComplete])
    | some h =>
      let a := attempt w s.1 h
      let d := deferredIncrement w a.1
      (d.1.MarkComplete, s.2 ++ a.2 ++ d.2 ++ [Call.MarkComplete])

/-! ## Observations on an execution -/

/-- The parent host an execution works on: the cached one, else the one
`FindOneId` returns; `none` when the lookup fails. -/
def resolvedParent (w : Collaborators) (j : buildingContainerImageJob) : Option Host :=
  match j.parent with
  | some h => some h
  | none =>
    match w.FindOneId with
    | Except.ok h => some h
    | Except.error _ => none

/-- The error line 79 records: the lookup error, when a lookup is made and fails. -/
def lookupErrors (w : Collaborators) (j : buildingContainerImageJob) : List String :=
  match j.parent with
  | some _ => []
  | none =>
    match w.FindOneId with
    | Except.ok _ => []
    | Except.error e => [e]

/-- Calls on the cloud provider: `GetManager`, `ConvertContainerManager`,
`BuildContainerImage`. -/
def Call.isProviderCall : Call → Bool
  | Call.GetManager _ => true
  | Call.ConvertContainerManager => true
  | Call.BuildContainerImage _ _ => true
  | _ => false

def Call.isBuild : Call → Bool
  | Call.BuildContainerImage _ _ => true
  | _ => false

def Call.isUpsert : Call → Bool
  | Call.Upsert _ => true
  | _ => false

/-- Calls that write to the host: `SetTerminated`, `Upsert`,
`IncContainerBuildAttempt`. -/
def Call.isHostWrite : Call → Bool
  | Call.SetTerminated _ => true
  | Call.Upsert _ => true
  | Call.IncContainerBuildAttempt => true
  | _ => false

/-- One dispatch of the provisioning job against a host: the job is built for
the host as it is now and run. -/
def dispatch (w : Collaborators) (env : Environment) (h : Host)
    (imageURL providerName : String) : buildingContainerImageJob × List Call :=
  Run w (NewBuildingContainerImageJob env h imageURL providerName)

/-- The host a dispatch leaves behind. -/
def hostAfter (h : Host) (r : buildingContainerImageJob × List Call) : Host :=
  match r.1.parent with
  | some h1 => h1
  | none => h

/-- Consecutive dispatches against one host, one `Collaborators` record per
dispatch: the traces of the dispatches in order, and the host at the end. -/
def dispatches (env : Environment) (imageURL providerName : String) :
    List Collaborators → Host → List (List Call) × Host
  | [], h => ([], h)
  | w :: ws, h =>
    let r := dispatch w env h imageURL providerName
    let rest := dispatches env imageURL providerName ws (hostAfter h r)
    (r.2 :: rest.1, rest.2)

/-- A provider whose build always fails, in front of a store whose increment
always succeeds. -/
def buildAlwaysFails (w : Collaborators) : Prop :=
  w.GetManager = none ∧ w.ConvertContainerManager = none ∧
    (∃ e, w.BuildContainerImage = some e) ∧ w.IncContainerBuildAttempt = none

/-! ## Concrete inputs -/

def sampleEnv : Environment := { Settings := { handle := 0 } }

/-- Host `h1` of the scenario in the specification, with a chosen attempt counter. -/
def sampleHost (attempts : Int) : Host :=
  { Id := "h1"
    Distro := "d1"
    Status := HostStatus.provisioning
    ContainerBuildAttempt := attempts
    ContainerImages := none }

/-- Collaborators that all succeed. -/
def allSucceed : Collaborators :=
  { FindOneId := Except.ok (sampleHost 0)
    GetEnvironment := sampleEnv
    SetTerminated := none
    GetManager := none
    ConvertContainerManager := none
    BuildContainerImage := none
    Upsert := none
    IncContainerBuildAttempt := none }

/-- Collaborators whose provider build fails. -/
def buildFails : Collaborators :=
  { allSucceed with BuildContainerImage := some "no space left on device" }

/-- Collaborators whose `SetTerminated` fails. -/
def terminationFails : Collaborators :=
  { allSucceed with SetTerminated := some "db unavailable" }

/-- Collaborators whose host lookup fails. -/
def lookupFails : Collaborators :=
  { allSucceed with FindOneId := Except.error "host not found" }

/-- The job for `h1` and `ubuntu:latest` on `docker`. -/
def sampleJob (attempts : Int) : buildingContainerImageJob :=
  NewBuildingContainerImageJob sampleEnv (sampleHost attempts) "ubuntu:latest" "docker"

/-- A job for an exhausted host after a first execution in which `SetTerminated`
failed: it carries the error that execution recorded. -/
def rerunJob : buildingContainerImageJob :=
  (Run terminationFails (sampleJob 5)).1

/-- A job as the registry rebuilds it from its persisted fields: no cached host. -/
def uncachedJob : buildingContainerImageJob :=
  { sampleJob 0 with parent := none }

/-! ## Lemmas on the steps of `Run` -/

theorem mapHas_mapSet_self (m : List (String × Bool)) (k : String) (v : Bool) :
    mapHas (mapSet m k v) k = true := by
  induction m with
  | nil => simp [mapSet, mapHas, List.lookup]
  | cons p rest ih =>
    obtain ⟨k0, v0⟩ := p
    by_cases hk : k0 = k
    · simp [mapSet, mapHas, List.lookup, hk]
    · have hk2 : (k == k0) = false := by simpa using fun he => hk he.symm
      simp only [mapHas] at ih
      simp [mapSet, mapHas, List.lookup, hk, hk2, ih]

theorem mapHas_mapSet_of_mapHas (m : List (String × Bool)) (k k1 : String) (v : Bool)
    (hm : mapHas m k1 = true) : mapHas (mapSet m k v) k1 = true := by
  induction m with
  | nil => simp [mapHas, List.lookup] at hm
  | cons p rest ih =>
    obtain ⟨k0, v0⟩ := p
    by_cases hk : k0 = k
    · by_cases h1 : k1 = k
      · subst h1; exact mapHas_mapSet_self _ _ _
      · have h2 : (k1 == k) = false := by simpa using h1
        have h3 : (k1 == k0) = false := by simpa [hk] using h1
        simp only [mapHas, List.lookup, h3] at hm
        simp only [mapSet, hk, if_true, mapHas, List.lookup, h2]
        exact hm
    · by_cases h1 : k1 = k0
      · have h3 : (k1 == k0) = true := by simpa using h1
        simp [mapSet, hk, mapHas, List.lookup, h3]
      · have h3 : (k1 == k0) = false := by simpa using h1
        simp only [mapHas, List.lookup, h3] at hm
        simp only [mapSet, hk, if_false, mapHas, List.lookup, h3]
        exact ih hm

/-- After lines 76-86 only the caches and the recorded errors differ. -/
theorem resolve_shape (w : Collaborators) (j : buildingContainerImageJob) :
    ∃ en st tr,
      resolve w j =
        ({ j with
            parent := resolvedParent w j
            env := some en
            settings := some st
            base := { j.base with Errors := j.base.Errors ++ lookupErrors w j } }, tr) ∧
      ∀ c ∈ tr, c = Call.FindOneId j.ParentID ∨ c = Call.GetEnvironment := by
  rcases j with ⟨pid, b, url, prov, par, en, st⟩
  rcases par with _ | p <;> rcases hf : w.FindOneId with x | x <;>
    rcases en with _ | en <;> rcases st with _ | st <;>
    simp [resolve, resolvedParent, lookupErrors, buildingContainerImageJob.AddError, hf] <;>
    exact ⟨_, _, _, ⟨⟨rfl, rfl⟩, rfl⟩, by simp⟩

theorem lookupErrors_of_resolved (w : Collaborators) (j : buildingContainerImageJob) (h : Host)
    (hres : resolvedParent w j = some h) : lookupErrors w j = [] := by
  unfold resolvedParent at hres
  unfold lookupErrors
  rcases hp : j.parent with _ | p <;> rcases hf : w.FindOneId with x | x <;> simp_all

/-- With a resolved parent and no error on record, lines 76-86 leave a job that
differs from the given one in its caches only. -/
theorem resolve_ready (w : Collaborators) (j : buildingContainerImageJob) (h : Host)
    (herr : j.base.Errors = []) (hres : resolvedParent w j = some h) :
    ∃ en st tr,
      resolve w j = ({ j with parent := some h, env := some en, settings := some st }, tr) ∧
      ∀ c ∈ tr, c = Call.FindOneId j.ParentID ∨ c = Call.GetEnvironment := by
  obtain ⟨en, st, tr, hr, htr⟩ := resolve_shape w j
  refine ⟨en, st, tr, ?_, htr⟩
  rw [hr, hres, lookupErrors_of_resolved w j h hres, herr]
  rcases j with ⟨pid, b, url, prov, par, en0, st0⟩
  rcases b with ⟨a1, a2, a3, a4, a5, a6⟩
  simp at herr
  simp [herr]

theorem attempt_exhausted (w : Collaborators) (j : buildingContainerImageJob) (h : Host)
    (h5 : containerBuildRetries ≤ h.ContainerBuildAttempt) :
    attempt w j h =
      (({ j with parent := some (h.SetTerminated Actor.User w.SetTerminated).1 }).AddError
        (Wrapf (h.SetTerminated Actor.User w.SetTerminated).2
          ("failed 5 times to build and download image \x27" ++ j.ImageURL
            ++ "\x27 on parent \x27" ++ h.Id ++ "\x27")),
        [Call.SetTerminated Actor.User]) := by
  have h5g : h.ContainerBuildAttempt ≥ containerBuildRetries := h5
  simp only [attempt, if_pos h5g]

theorem attempt_within (w : Collaborators) (j : buildingContainerImageJob) (h : Host)
    (hc : h.ContainerBuildAttempt < containerBuildRetries) :
    attempt w j h =
      match w.GetManager with
      | some e =>
        (j.AddError (Wrap (some e) "error getting Docker manager"), [Call.GetManager j.Provider])
      | none =>
        match w.ConvertContainerManager with
        | some e =>
          (j.AddError (Wrap (some e) "error getting Docker manager"),
            [Call.GetManager j.Provider, Call.ConvertContainerManager])
        | none =>
          match w.BuildContainerImage with
          | some e =>
            (j.AddError (Wrap (some e) "error building and downloading container image"),
              [Call.GetManager j.Provider, Call.ConvertContainerManager,
                Call.BuildContainerImage h.Id j.ImageURL])
          | none =>
            let images : List (String × Bool) :=
              match h.ContainerImages with
              | none => []
              | some m => m
            let h1 : Host := { h with ContainerImages := some (mapSet images j.ImageURL true) }
            let j1 : buildingContainerImageJob := { j with parent := some h1 }
            let calls : List Call :=
              [Call.GetManager j.Provider, Call.ConvertContainerManager,
                Call.BuildContainerImage h.Id j.ImageURL, Call.Upsert h1]
            match w.Upsert with
            | some e => (j1.AddError (Wrapf (some e) ("error upserting parent " ++ h1.Id)), calls)
            | none => (j1, calls) := by
  have hcn : ¬ (h.ContainerBuildAttempt ≥ containerBuildRetries) := not_le.mpr hc
  simp only [attempt, if_neg hcn]

/-- The run past the gate of line 88: the statements of lines 115-146, then the
deferred increment, then `MarkComplete`. -/
theorem Run_ready (w : Collaborators) (j : buildingContainerImageJob) (h : Host)
    (herr : (resolve w j).1.HasErrors = false) (hp : (resolve w j).1.parent = some h) :
    Run w j =
      ((deferredIncrement w (attempt w (resolve w j).1 h).1).1.MarkComplete,
        (resolve w j).2 ++ (attempt w (resolve w j).1 h).2
          ++ (deferredIncrement w (attempt w (resolve w j).1 h).1).2 ++ [Call.MarkComplete]) := by
  simp [Run, herr, hp]

/-- The run stopped by the gate of line 88. -/
theorem Run_gated (w : Collaborators) (j : buildingContainerImageJob)
    (herr : (resolve w j).1.HasErrors = true) :
    Run w j = ((resolve w j).1.MarkComplete, (resolve w j).2 ++ [Call.MarkComplete]) := by
  simp [Run, herr]

/-- A job that already carries an error is stopped by the gate of line 88. -/
theorem resolve_hasErrors_of_errors (w : Collaborators) (j : buildingContainerImageJob)
    (herr : j.base.Errors ≠ []) : (resolve w j).1.HasErrors = true := by
  obtain ⟨en, st, tr, hr, _⟩ := resolve_shape w j
  rw [hr]
  have : 0 < j.base.Errors.length := List.length_pos.mpr herr
  simp [buildingContainerImageJob.HasErrors]
  omega
/-- Calls made while filling the caches are neither provider calls nor host writes. -/
theorem quiet_countP (tr : List Call) (id : String) (p : Call → Bool)
    (htr : ∀ c ∈ tr, c = Call.FindOneId id ∨ c = Call.GetEnvironment)
    (h1 : p (Call.FindOneId id) = false) (h2 : p Call.GetEnvironment = false) :
    tr.countP p = 0 := by
  rw [List.countP_eq_zero]
  intro c hc
  rcases htr c hc with rfl | rfl <;> simp [h1, h2]

theorem quiet_count (tr : List Call) (id : String) (c0 : Call)
    (htr : ∀ c ∈ tr, c = Call.FindOneId id ∨ c = Call.GetEnvironment)
    (h1 : c0 ≠ Call.FindOneId id) (h2 : c0 ≠ Call.GetEnvironment) :
    tr.count c0 = 0 := by
  rw [List.count_eq_zero]
  intro hc
  rcases htr c0 hc with h | h
  · exact h1 h
  · exact h2 h

/-! ## Claims -/

/-- C1, as stated, fails: `rerunJob` has its parent cached with an attempt counter
of at least 5, yet running it never calls `SetTerminated`, because the error it
already carries stops the run at the gate of line 88. -/
theorem C1_counterexample :
    (∃ h, resolvedParent allSucceed rerunJob = some h ∧
        containerBuildRetries ≤ h.ContainerBuildAttempt) ∧
      rerunJob.HasErrors = true ∧
      (Run allSucceed rerunJob).2.count (Call.SetTerminated Actor.User) = 0 := by
  refine ⟨⟨sampleHost 6, by decide, by decide⟩, by decide, by decide⟩

/-- C1 (amended): on a job with no previously recorded errors whose parent host is
resolved with an attempt counter of at least `containerBuildRetries`, `Run` makes
no provider call (`GetManager`, `ConvertContainerManager`, `BuildContainerImage`),
does not call `Upsert`, leaves the built-image map of the host as it was, and calls
`SetTerminated(evergreen.User)` exactly once. -/
theorem C1_budget_exhausted (w : Collaborators) (j : buildingContainerImageJob) (h : Host)
    (herr : j.base.Errors = []) (hres : resolvedParent w j = some h)
    (h5 : containerBuildRetries ≤ h.ContainerBuildAttempt) :
    (Run w j).2.countP Call.isProviderCall = 0 ∧
      (Run w j).2.countP Call.isUpsert = 0 ∧
      (∃ h1, (Run w j).1.parent = some h1 ∧ h1.ContainerImages = h.ContainerImages) ∧
      (Run w j).2.count (Call.SetTerminated Actor.User) = 1 := by
  obtain ⟨en, st, tr, hr, htr⟩ := resolve_ready w j h herr hres
  have q1 := quiet_countP tr j.ParentID Call.isProviderCall htr rfl rfl
  have q2 := quiet_countP tr j.ParentID Call.isUpsert htr rfl rfl
  have q3 := quiet_count tr j.ParentID (Call.SetTerminated Actor.User) htr (by simp) (by simp)
  rw [Run_ready w j h (by simp [hr, herr, buildingContainerImageJob.HasErrors]) (by simp [hr])]
  rw [hr, attempt_exhausted _ _ _ h5]
  rcases ht : w.SetTerminated with _ | e1 <;> rcases hi : w.IncContainerBuildAttempt with _ | e2 <;>
    simp [deferredIncrement, buildingContainerImageJob.AddError,
      buildingContainerImageJob.MarkComplete, Host.IncContainerBuildAttempt, Host.SetTerminated,
      Wrap, Wrapf, ht, hi, q1, q2, q3, Call.isProviderCall, Call.isUpsert, List.countP_cons]

/-- Witness for C1: an exhausted host `h1` and a fresh job for it. -/
theorem C1_budget_exhausted_witness :
    (Run allSucceed (sampleJob 5)).2.countP Call.isProviderCall = 0 ∧
      (Run allSucceed (sampleJob 5)).2.countP Call.isUpsert = 0 ∧
      (∃ h1, (Run allSucceed (sampleJob 5)).1.parent = some h1 ∧
        h1.ContainerImages = (sampleHost 5).ContainerImages) ∧
      (Run allSucceed (sampleJob 5)).2.count (Call.SetTerminated Actor.User) = 1 :=
  C1_budget_exhausted allSucceed (sampleJob 5) (sampleHost 5) (by decide) (by decide) (by decide)

/-- C2: on a job with no previously recorded errors whose parent host is resolved
with an attempt counter `c < 5`, when the manager and the container capability are
obtained, `BuildContainerImage` fails and `IncContainerBuildAttempt` succeeds, the
host after the run is the host on entry with counter `c + 1` (so its built-image
map is unchanged), exactly one error is recorded, the wrapped provider error,
and `Upsert` is not called. -/
theorem C2_build_failure (w : Collaborators) (j : buildingContainerImageJob) (h : Host)
    (e : String) (herr : j.base.Errors = []) (hres : resolvedParent w j = some h)
    (hc : h.ContainerBuildAttempt < containerBuildRetries)
    (hm : w.GetManager = none) (hcm : w.ConvertContainerManager = none)
    (hb : w.BuildContainerImage = some e) (hi : w.IncContainerBuildAttempt = none) :
    (Run w j).1.parent =
        some { h with ContainerBuildAttempt := h.ContainerBuildAttempt + 1 } ∧
      (Run w j).1.base.Errors =
        ["error building and downloading container image" ++ ": " ++ e] ∧
      (Run w j).2.countP Call.isUpsert = 0 := by
  obtain ⟨en, st, tr, hr, htr⟩ := resolve_ready w j h herr hres
  have q2 := quiet_countP tr j.ParentID Call.isUpsert htr rfl rfl
  rw [Run_ready w j h (by simp [hr, herr, buildingContainerImageJob.HasErrors]) (by simp [hr])]
  rw [hr, attempt_within _ _ _ hc]
  simp [hm, hcm, hb, hi, herr, deferredIncrement, buildingContainerImageJob.AddError,
    buildingContainerImageJob.MarkComplete, Host.IncContainerBuildAttempt, Wrap, q2,
    Call.isUpsert, List.countP_cons]

/-- Witness for C2: the scenario of the specification, host `h1` at attempt 4. -/
theorem C2_build_failure_witness :
    (Run buildFails (sampleJob 4)).1.parent =
        some { sampleHost 4 with ContainerBuildAttempt := (sampleHost 4).ContainerBuildAttempt + 1 } ∧
      (Run buildFails (sampleJob 4)).1.base.Errors =
        ["error building and downloading container image" ++ ": " ++ "no space left on device"] ∧
      (Run buildFails (sampleJob 4)).2.countP Call.isUpsert = 0 :=
  C2_build_failure buildFails (sampleJob 4) (sampleHost 4) "no space left on device"
    (by decide) (by decide) (by decide) (by decide) (by decide) (by decide) (by decide)
/-- C3: when the parent host is resolved with an attempt counter `c < 5`, the
manager and the container capability are obtained, `BuildContainerImage` is
called and succeeds, and `IncContainerBuildAttempt` succeeds, then after the
run the image URL of the job is a key of the built-image map of the host (also
when the map was nil before), every key the map had is still there, `Upsert` has
been called exactly once, on a host whose map already has the image URL, and the
attempt counter is `c + 1`. -/
theorem C3_build_success (w : Collaborators) (j : buildingContainerImageJob) (h : Host)
    (hres : resolvedParent w j = some h)
    (hc : h.ContainerBuildAttempt < containerBuildRetries)
    (hm : w.GetManager = none) (hcm : w.ConvertContainerManager = none)
    (hinv : Call.BuildContainerImage h.Id j.ImageURL ∈ (Run w j).2)
    (hb : w.BuildContainerImage = none) (hi : w.IncContainerBuildAttempt = none) :
    ∃ h1, (Run w j).1.parent = some h1 ∧
      h1.hasImage j.ImageURL = true ∧
      (∀ k, h.hasImage k = true → h1.hasImage k = true) ∧
      h1.ContainerBuildAttempt = h.ContainerBuildAttempt + 1 ∧
      ∃ hu, (Run w j).2.filter Call.isUpsert = [Call.Upsert hu] ∧
        hu.hasImage j.ImageURL = true := by
  have herr : j.base.Errors = [] := by
    by_contra hne
    obtain ⟨en, st, tr, hr, htr⟩ := resolve_shape w j
    rw [Run_gated w j (resolve_hasErrors_of_errors w j hne), hr] at hinv
    simp only [List.mem_append, List.mem_singleton] at hinv
    rcases hinv with hin | hin
    · rcases htr _ hin with h1 | h1 <;> exact Call.noConfusion h1
    · exact Call.noConfusion hin
  obtain ⟨en, st, tr, hr, htr⟩ := resolve_ready w j h herr hres
  have q2 : tr.filter Call.isUpsert = [] := by
    rw [List.filter_eq_nil_iff]
    intro c hcm
    rcases htr c hcm with rfl | rfl <;> simp [Call.isUpsert]
  rw [Run_ready w j h (by simp [hr, herr, buildingContainerImageJob.HasErrors]) (by simp [hr])]
  rw [hr, attempt_within _ _ _ hc]
  have key : ∀ k, h.hasImage k = true →
      mapHas (mapSet (match h.ContainerImages with | none => [] | some m => m) j.ImageURL true) k
        = true := by
    intro k hk
    unfold Host.hasImage at hk
    rcases hci : h.ContainerImages with _ | m
    · simp [hci] at hk
    · simp only [hci] at hk
      exact mapHas_mapSet_of_mapHas m j.ImageURL k true hk
  rcases hu : w.Upsert with _ | e <;>
    simp [hm, hcm, hb, hi, hu, deferredIncrement, buildingContainerImageJob.AddError,
      buildingContainerImageJob.MarkComplete, Host.IncContainerBuildAttempt, Wrap, Wrapf, q2,
      Call.isUpsert, List.filter_cons, Host.hasImage, mapHas_mapSet_self] <;>
    exact key

/-- Witness for C3: host `h1` at attempt 0 with a nil image map, all collaborators
succeeding. -/
theorem C3_build_success_witness :
    ∃ h1, (Run allSucceed (sampleJob 0)).1.parent = some h1 ∧
      h1.hasImage (sampleJob 0).ImageURL = true ∧
      (∀ k, (sampleHost 0).hasImage k = true → h1.hasImage k = true) ∧
      h1.ContainerBuildAttempt = (sampleHost 0).ContainerBuildAttempt + 1 ∧
      ∃ hu, (Run allSucceed (sampleJob 0)).2.filter Call.isUpsert = [Call.Upsert hu] ∧
        hu.hasImage (sampleJob 0).ImageURL = true :=
  C3_build_success allSucceed (sampleJob 0) (sampleHost 0) (by decide) (by decide) (by decide)
    (by decide) (by decide) (by decide) (by decide)

theorem attempt_trace_no_complete (w : Collaborators) (j : buildingContainerImageJob)
    (h : Host) : Call.MarkComplete ∉ (attempt w j h).2 := by
  by_cases h5 : containerBuildRetries ≤ h.ContainerBuildAttempt
  · rw [attempt_exhausted _ _ _ h5]; simp
  · rw [attempt_within _ _ _ (not_le.mp h5)]
    rcases w.GetManager with _ | e1 <;> rcases w.ConvertContainerManager with _ | e2 <;>
      rcases w.BuildContainerImage with _ | e3 <;> rcases w.Upsert with _ | e4 <;> simp

theorem deferredIncrement_trace_no_complete (w : Collaborators)
    (j : buildingContainerImageJob) : Call.MarkComplete ∉ (deferredIncrement w j).2 := by
  unfold deferredIncrement
  rcases j.parent with _ | h
  · simp
  · rcases hi : w.IncContainerBuildAttempt with _ | e <;>
      simp [Host.IncContainerBuildAttempt, hi]

/-- Every trace of `Run` is a list of other calls followed by one `MarkComplete`. -/
theorem Run_trace_shape (w : Collaborators) (j : buildingContainerImageJob) :
    ∃ pre, (Run w j).2 = pre ++ [Call.MarkComplete] ∧ Call.MarkComplete ∉ pre ∧
      (Run w j).1.base.Completed = true := by
  obtain ⟨en, st, tr, hr, htr⟩ := resolve_shape w j
  have htr0 : Call.MarkComplete ∉ tr := by
    intro hin
    rcases htr _ hin with h1 | h1 <;> exact Call.noConfusion h1
  have htr1 : Call.MarkComplete ∉ (resolve w j).2 := by rw [hr]; exact htr0
  by_cases hE : (resolve w j).1.HasErrors = true
  · rw [Run_gated w j hE]
    exact ⟨_, rfl, htr1, by simp [buildingContainerImageJob.MarkComplete]⟩
  · rcases hp : (resolve w j).1.parent with _ | h
    · refine ⟨(resolve w j).2, ?_, htr1, ?_⟩ <;>
        simp [Run, hE, hp, buildingContainerImageJob.MarkComplete]
    · rw [Run_ready w j h (by simpa using hE) hp]
      refine ⟨_, rfl, ?_, by simp [buildingContainerImageJob.MarkComplete]⟩
      simp only [List.mem_append, not_or]
      exact ⟨⟨htr1, attempt_trace_no_complete _ _ _⟩, deferredIncrement_trace_no_complete _ _⟩

/-- C5: in every execution of `Run`, whatever the collaborators answer and
whatever errors are on record, `MarkComplete` is called exactly once, it is the
last call, the job ends up complete, and any call of `IncContainerBuildAttempt`
comes before it. -/
theorem C5_mark_complete_once (w : Collaborators) (j : buildingContainerImageJob) :
    (Run w j).2.count Call.MarkComplete = 1 ∧
      (Run w j).2.getLast? = some Call.MarkComplete ∧
      (Run w j).1.base.Completed = true ∧
      ∀ a b, (Run w j).2 = a ++ Call.IncContainerBuildAttempt :: b →
        Call.MarkComplete ∉ a ∧ Call.MarkComplete ∈ b := by
  obtain ⟨pre, hpre, hno, hdone⟩ := Run_trace_shape w j
  refine ⟨?_, ?_, hdone, ?_⟩
  · rw [hpre, List.count_append, List.count_eq_zero.mpr hno]; simp
  · rw [hpre]; simp
  · intro a b hab
    rw [hpre] at hab
    have hb : b ≠ [] := by
      rintro rfl
      have := congrArg List.getLast? hab
      simp at this
    obtain ⟨b0, x, rfl⟩ : ∃ b0 x, b = b0 ++ [x] :=
      ⟨b.dropLast, b.getLast hb, (List.dropLast_append_getLast hb).symm⟩
    have hab2 : pre ++ [Call.MarkComplete] = (a ++ Call.IncContainerBuildAttempt :: b0) ++ [x] := by
      rw [hab]; simp
    obtain ⟨h1, h2⟩ := List.append_inj' hab2 rfl
    have hx : x = Call.MarkComplete := by simpa using h2.symm
    subst hx
    subst h1
    simp only [List.mem_append, List.mem_cons, not_or] at hno
    exact ⟨hno.1, by simp⟩

/-- C6: when the parent host is not cached and `FindOneId` fails, the lookup
error is recorded on the job and nothing else is attempted: the only calls are
the lookup, the environment lookup and `MarkComplete`, so there is no provider
call and no write to a host, and the job still has no parent host. -/
theorem C6_lookup_failure (w : Collaborators) (j : buildingContainerImageJob) (e : String)
    (hp : j.parent = none) (hf : w.FindOneId = Except.error e) :
    (Run w j).1.base.Errors = j.base.Errors ++ [e] ∧
      (Run w j).1.parent = none ∧
      (∀ c ∈ (Run w j).2,
        c = Call.FindOneId j.ParentID ∨ c = Call.GetEnvironment ∨ c = Call.MarkComplete) ∧
      (Run w j).2.countP Call.isHostWrite = 0 ∧
      (Run w j).2.countP Call.isProviderCall = 0 := by
  obtain ⟨en, st, tr, hr, htr⟩ := resolve_shape w j
  have hl : lookupErrors w j = [e] := by simp [lookupErrors, hp, hf]
  have hrp : resolvedParent w j = none := by simp [resolvedParent, hp, hf]
  have q1 := quiet_countP tr j.ParentID Call.isHostWrite htr rfl rfl
  have q2 := quiet_countP tr j.ParentID Call.isProviderCall htr rfl rfl
  rw [Run_gated w j (by simp [hr, hl, buildingContainerImageJob.HasErrors]), hr, hl, hrp]
  refine ⟨by simp [buildingContainerImageJob.MarkComplete],
    by simp [buildingContainerImageJob.MarkComplete], ?_, ?_, ?_⟩
  · intro c hc
    simp only [List.mem_append, List.mem_singleton] at hc
    rcases hc with hc | hc
    · rcases htr c hc with h1 | h1
      · exact Or.inl h1
      · exact Or.inr (Or.inl h1)
    · exact Or.inr (Or.inr hc)
  · simp [q1, Call.isHostWrite]
  · simp [q2, Call.isProviderCall]

/-- Witness for C6: a job rebuilt without its cached host, and a failing lookup. -/
theorem C6_lookup_failure_witness :
    (Run lookupFails uncachedJob).1.base.Errors = uncachedJob.base.Errors ++ ["host not found"] ∧
      (Run lookupFails uncachedJob).1.parent = none ∧
      (∀ c ∈ (Run lookupFails uncachedJob).2,
        c = Call.FindOneId uncachedJob.ParentID ∨ c = Call.GetEnvironment ∨
          c = Call.MarkComplete) ∧
      (Run lookupFails uncachedJob).2.countP Call.isHostWrite = 0 ∧
      (Run lookupFails uncachedJob).2.countP Call.isProviderCall = 0 :=
  C6_lookup_failure lookupFails uncachedJob "host not found" (by decide) (by rfl)
/-- C7 (the code at the failing input): host `h1` has used its 5 attempts and
every collaborator succeeds; `SetTerminated` is called and the host ends up
terminated, but the job records no error at all, since `Wrapf` of a nil error
is nil. -/
theorem C7_no_error_recorded :
    (Run allSucceed (sampleJob 5)).2.count (Call.SetTerminated Actor.User) = 1 ∧
      (Run allSucceed (sampleJob 5)).1.HasErrors = false ∧
      (Run allSucceed (sampleJob 5)).1.base.Errors = [] ∧
      (Run allSucceed (sampleJob 5)).1.parent =
        some { sampleHost 5 with Status := HostStatus.terminated, ContainerBuildAttempt := 6 } := by
  decide

/-- C8, as stated, fails: on the budget-exhaustion exit for host `h1` at attempt 5
the deferred increment runs once and the counter ends at 6. -/
theorem C8_counterexample :
    resolvedParent allSucceed (sampleJob 5) = some (sampleHost 5) ∧
      containerBuildRetries ≤ (sampleHost 5).ContainerBuildAttempt ∧
      (Run allSucceed (sampleJob 5)).2.count Call.IncContainerBuildAttempt = 1 ∧
      (Run allSucceed (sampleJob 5)).2.countP Call.isProviderCall = 0 ∧
      (hostAfter (sampleHost 5) (Run allSucceed (sampleJob 5))).ContainerBuildAttempt = 6 := by
  decide

/-- C8 (amended): on a job with no previously recorded errors that takes the
budget-exhaustion exit (parent host resolved with an attempt counter of at least
5), the deferred increment is performed although no provider step is reached:
`IncContainerBuildAttempt` is called exactly once, after `SetTerminated`; when
it succeeds the counter after the run is its value on entry plus 1, and when it
fails the counter is its value on entry. -/
theorem C8_increment_on_exhaustion (w : Collaborators) (j : buildingContainerImageJob)
    (h : Host) (herr : j.base.Errors = []) (hres : resolvedParent w j = some h)
    (h5 : containerBuildRetries ≤ h.ContainerBuildAttempt) :
    (Run w j).2.count Call.IncContainerBuildAttempt = 1 ∧
      (Run w j).2.countP Call.isProviderCall = 0 ∧
      (∃ pre, (Run w j).2 = pre ++ [Call.SetTerminated Actor.User,
        Call.IncContainerBuildAttempt, Call.MarkComplete]) ∧
      ∃ h1, (Run w j).1.parent = some h1 ∧
        (w.IncContainerBuildAttempt = none →
          h1.ContainerBuildAttempt = h.ContainerBuildAttempt + 1) ∧
        (w.IncContainerBuildAttempt ≠ none →
          h1.ContainerBuildAttempt = h.ContainerBuildAttempt) := by
  obtain ⟨en, st, tr, hr, htr⟩ := resolve_ready w j h herr hres
  have q1 := quiet_countP tr j.ParentID Call.isProviderCall htr rfl rfl
  have q3 := quiet_count tr j.ParentID Call.IncContainerBuildAttempt htr (by simp) (by simp)
  rw [Run_ready w j h (by simp [hr, herr, buildingContainerImageJob.HasErrors]) (by simp [hr])]
  rw [hr, attempt_exhausted _ _ _ h5]
  rcases ht : w.SetTerminated with _ | e1 <;> rcases hi : w.IncContainerBuildAttempt with _ | e2 <;>
    simp [deferredIncrement, buildingContainerImageJob.AddError,
      buildingContainerImageJob.MarkComplete, Host.IncContainerBuildAttempt, Host.SetTerminated,
      Wrap, Wrapf, ht, hi, q1, q3, Call.isProviderCall, List.countP_cons]

/-- Witness for C8: host `h1` at attempt 5, every collaborator succeeding. -/
theorem C8_increment_on_exhaustion_witness :
    (Run allSucceed (sampleJob 5)).2.count Call.IncContainerBuildAttempt = 1 ∧
      (Run allSucceed (sampleJob 5)).2.countP Call.isProviderCall = 0 ∧
      (∃ pre, (Run allSucceed (sampleJob 5)).2 = pre ++ [Call.SetTerminated Actor.User,
        Call.IncContainerBuildAttempt, Call.MarkComplete]) ∧
      ∃ h1, (Run allSucceed (sampleJob 5)).1.parent = some h1 ∧
        (allSucceed.IncContainerBuildAttempt = none →
          h1.ContainerBuildAttempt = (sampleHost 5).ContainerBuildAttempt + 1) ∧
        (allSucceed.IncContainerBuildAttempt ≠ none →
          h1.ContainerBuildAttempt = (sampleHost 5).ContainerBuildAttempt) :=
  C8_increment_on_exhaustion allSucceed (sampleJob 5) (sampleHost 5) (by decide) (by decide)
    (by decide)

/-- One execution of `Run` on a job with a cached parent leaves a parent whose
attempt counter is the old one or the old one plus 1. -/
theorem Run_counter_step (w : Collaborators) (j : buildingContainerImageJob) (h : Host)
    (hp : j.parent = some h) :
    ∃ h1, (Run w j).1.parent = some h1 ∧
      h.ContainerBuildAttempt ≤ h1.ContainerBuildAttempt ∧
      h1.ContainerBuildAttempt ≤ h.ContainerBuildAttempt + 1 := by
  obtain ⟨en, st, tr, hr, htr⟩ := resolve_shape w j
  have hres : resolvedParent w j = some h := by simp [resolvedParent, hp]
  by_cases hE : (resolve w j).1.HasErrors = true
  · rw [Run_gated w j hE, hr, hres]
    exact ⟨h, by simp [buildingContainerImageJob.MarkComplete], le_refl _, by omega⟩
  · rw [Run_ready w j h (by simpa using hE) (by simp [hr, hres])]
    rw [hr, hres]
    by_cases h5 : containerBuildRetries ≤ h.ContainerBuildAttempt
    · rw [attempt_exhausted _ _ _ h5]
      rcases ht : w.SetTerminated with _ | e1 <;>
        rcases hi : w.IncContainerBuildAttempt with _ | e2 <;>
        simp [deferredIncrement, buildingContainerImageJob.AddError,
          buildingContainerImageJob.MarkComplete, Host.IncContainerBuildAttempt,
          Host.SetTerminated, Wrap, Wrapf, ht, hi]
    · rw [attempt_within _ _ _ (not_le.mp h5)]
      rcases hm : w.GetManager with _ | e1 <;>
        rcases hcm : w.ConvertContainerManager with _ | e2 <;>
        rcases hb : w.BuildContainerImage with _ | e3 <;>
        rcases hu : w.Upsert with _ | e4 <;>
        rcases hi : w.IncContainerBuildAttempt with _ | e5 <;>
        simp [deferredIncrement, buildingContainerImageJob.AddError,
          buildingContainerImageJob.MarkComplete, Host.IncContainerBuildAttempt,
          Wrap, Wrapf, hm, hcm, hb, hu, hi]

/-- C9, as stated, fails: running the job for host `h1` at attempt 0 twice, with
every collaborator succeeding, takes the counter from 0 to 2. -/
theorem C9_counterexample :
    (hostAfter (sampleHost 0)
        (Run allSucceed (Run allSucceed (sampleJob 0)).1)).ContainerBuildAttempt = 2 ∧
      ¬ ((hostAfter (sampleHost 0)
          (Run allSucceed (Run allSucceed (sampleJob 0)).1)).ContainerBuildAttempt
        ≤ (sampleHost 0).ContainerBuildAttempt + 1) := by
  decide

/-- C9 (amended): executing `Run` twice for the same job built for a host
increases the attempt counter of the host by at most 1 per execution, hence by
at most 2 in total, and never decreases it. -/
theorem C9_two_runs_counter (w1 w2 : Collaborators) (env : Environment) (h : Host)
    (imageURL providerName : String) :
    ∃ h1 h2,
      (Run w1 (NewBuildingContainerImageJob env h imageURL providerName)).1.parent = some h1 ∧
      (Run w2 (Run w1 (NewBuildingContainerImageJob env h imageURL providerName)).1).1.parent
        = some h2 ∧
      h.ContainerBuildAttempt ≤ h1.ContainerBuildAttempt ∧
      h1.ContainerBuildAttempt ≤ h.ContainerBuildAttempt + 1 ∧
      h1.ContainerBuildAttempt ≤ h2.ContainerBuildAttempt ∧
      h2.ContainerBuildAttempt ≤ h1.ContainerBuildAttempt + 1 ∧
      h2.ContainerBuildAttempt ≤ h.ContainerBuildAttempt + 2 := by
  obtain ⟨h1, hp1, ha, hb⟩ :=
    Run_counter_step w1 (NewBuildingContainerImageJob env h imageURL providerName) h rfl
  obtain ⟨h2, hp2, hc, hd⟩ := Run_counter_step w2 _ h1 hp1
  exact ⟨h1, h2, hp1, hp2, ha, hb, hc, hd, by omega⟩
/-- A dispatch under a failing build, for a host with attempts left: one build
call, no termination, and the host comes back with its counter increased by 1
and nothing else changed. -/
theorem dispatch_failing_within (w : Collaborators) (env : Environment) (h : Host)
    (imageURL providerName : String) (hw : buildAlwaysFails w)
    (hc : h.ContainerBuildAttempt < containerBuildRetries) :
    (dispatch w env h imageURL providerName).2.countP Call.isBuild = 1 ∧
      (dispatch w env h imageURL providerName).2.count (Call.SetTerminated Actor.User) = 0 ∧
      hostAfter h (dispatch w env h imageURL providerName) =
        { h with ContainerBuildAttempt := h.ContainerBuildAttempt + 1 } := by
  obtain ⟨hm, hcm, ⟨e, hb⟩, hi⟩ := hw
  obtain ⟨en, st, tr, hr, htr⟩ :=
    resolve_ready w (NewBuildingContainerImageJob env h imageURL providerName) h rfl rfl
  have q1 := quiet_countP tr _ Call.isBuild htr rfl rfl
  have q3 := quiet_count tr _ (Call.SetTerminated Actor.User) htr (by simp) (by simp)
  unfold dispatch hostAfter
  rw [Run_ready w _ h (by simp [hr, buildingContainerImageJob.HasErrors]; rfl) (by simp [hr])]
  rw [hr, attempt_within _ _ _ hc]
  simp [hm, hcm, hb, hi, deferredIncrement, buildingContainerImageJob.AddError,
    buildingContainerImageJob.MarkComplete, Host.IncContainerBuildAttempt, Wrap, q1, q3,
    Call.isBuild, List.countP_cons]

/-- A dispatch under a failing build, for a host with no attempts left: no build
call, one termination call, and the counter still goes up by 1. -/
theorem dispatch_failing_exhausted (w : Collaborators) (env : Environment) (h : Host)
    (imageURL providerName : String) (hw : buildAlwaysFails w)
    (h5 : containerBuildRetries ≤ h.ContainerBuildAttempt) :
    (dispatch w env h imageURL providerName).2.countP Call.isBuild = 0 ∧
      (dispatch w env h imageURL providerName).2.count (Call.SetTerminated Actor.User) = 1 ∧
      (hostAfter h (dispatch w env h imageURL providerName)).ContainerBuildAttempt =
        h.ContainerBuildAttempt + 1 := by
  obtain ⟨hm, hcm, ⟨e, hb⟩, hi⟩ := hw
  obtain ⟨en, st, tr, hr, htr⟩ :=
    resolve_ready w (NewBuildingContainerImageJob env h imageURL providerName) h rfl rfl
  have q1 := quiet_countP tr _ Call.isBuild htr rfl rfl
  have q3 := quiet_count tr _ (Call.SetTerminated Actor.User) htr (by simp) (by simp)
  unfold dispatch hostAfter
  rw [Run_ready w _ h (by simp [hr, buildingContainerImageJob.HasErrors]; rfl) (by simp [hr])]
  rw [hr, attempt_exhausted _ _ _ h5]
  rcases ht : w.SetTerminated with _ | e1 <;>
    simp [hi, ht, deferredIncrement, buildingContainerImageJob.AddError,
      buildingContainerImageJob.MarkComplete, Host.IncContainerBuildAttempt, Host.SetTerminated,
      Wrap, Wrapf, q1, q3, Call.isBuild, List.countP_cons]

/-- Consecutive dispatches under a failing build, from a host that has used `k`
attempts: dispatch number `i` (from 0) builds once and does not terminate while
`k + i < 5`, and from then on terminates without building. -/
theorem dispatches_failing (env : Environment) (imageURL providerName : String)
    (ws : List Collaborators) :
    ∀ (h : Host) (k : Nat), h.ContainerBuildAttempt = (k : Int) →
      (∀ w ∈ ws, buildAlwaysFails w) →
      (∀ i t, (dispatches env imageURL providerName ws h).1[i]? = some t →
        (k + i < 5 → t.countP Call.isBuild = 1 ∧ t.count (Call.SetTerminated Actor.User) = 0) ∧
        (5 ≤ k + i → t.countP Call.isBuild = 0 ∧ t.count (Call.SetTerminated Actor.User) = 1)) ∧
      ((dispatches env imageURL providerName ws h).1.map (List.countP Call.isBuild)).sum
        = min ws.length (5 - k) := by
  induction ws with
  | nil =>
    intro h k _ _
    simp [dispatches]
  | cons w ws ih =>
    intro h k hk hws
    have hw : buildAlwaysFails w := hws w (List.mem_cons_self _ _)
    have hrest : ∀ w1 ∈ ws, buildAlwaysFails w1 := fun w1 h1 => hws w1 (List.mem_cons_of_mem _ h1)
    have hnext : (hostAfter h (dispatch w env h imageURL providerName)).ContainerBuildAttempt
        = ((k + 1 : Nat) : Int) := by
      by_cases h5 : containerBuildRetries ≤ h.ContainerBuildAttempt
      · rw [(dispatch_failing_exhausted w env h imageURL providerName hw h5).2.2, hk]; simp
      · rw [(dispatch_failing_within w env h imageURL providerName hw (not_le.mp h5)).2.2]
        simp [hk]
    obtain ⟨ih1, ih2⟩ := ih _ (k + 1) hnext hrest
    have hfirst : (k < 5 →
          (dispatch w env h imageURL providerName).2.countP Call.isBuild = 1 ∧
          (dispatch w env h imageURL providerName).2.count (Call.SetTerminated Actor.User) = 0) ∧
        (5 ≤ k →
          (dispatch w env h imageURL providerName).2.countP Call.isBuild = 0 ∧
          (dispatch w env h imageURL providerName).2.count (Call.SetTerminated Actor.User) = 1) := by
      constructor
      · intro hlt
        have hc : h.ContainerBuildAttempt < containerBuildRetries := by
          rw [hk]; simp only [containerBuildRetries]; omega
        exact ⟨(dispatch_failing_within w env h imageURL providerName hw hc).1,
          (dispatch_failing_within w env h imageURL providerName hw hc).2.1⟩
      · intro hge
        have h5 : containerBuildRetries ≤ h.ContainerBuildAttempt := by
          rw [hk]; simp only [containerBuildRetries]; omega
        exact ⟨(dispatch_failing_exhausted w env h imageURL providerName hw h5).1,
          (dispatch_failing_exhausted w env h imageURL providerName hw h5).2.1⟩
    constructor
    · intro i t hit
      cases i with
      | zero =>
        simp only [dispatches, List.getElem?_cons_zero, Option.some.injEq] at hit
        subst hit
        simpa using hfirst
      | succ i =>
        simp only [dispatches, List.getElem?_cons_succ] at hit
        have := ih1 i t hit
        constructor
        · intro hlt; exact this.1 (by omega)
        · intro hge; exact this.2 (by omega)
    · simp only [dispatches, List.map_cons, List.sum_cons, List.length_cons]
      rw [ih2]
      by_cases hlt : k < 5
      · rw [(hfirst.1 hlt).1]; omega
      · rw [(hfirst.2 (by omega)).1]; omega

/-- C4: for a host whose attempt counter starts at 0, under collaborators whose
build always fails and whose increment always succeeds, in any sequence of
consecutive dispatches each of the first 5 calls `BuildContainerImage` exactly
once and does not call `SetTerminated`, the 6th (and any later one) calls
`BuildContainerImage` zero times and calls `SetTerminated`, and over the whole
sequence of `n` dispatches the build is called exactly `min n 5` times. -/
theorem C4_retry_budget (env : Environment) (imageURL providerName : String)
    (ws : List Collaborators) (h : Host) (h0 : h.ContainerBuildAttempt = 0)
    (hws : ∀ w ∈ ws, buildAlwaysFails w) :
    (∀ i t, (dispatches env imageURL providerName ws h).1[i]? = some t →
      (i < 5 → t.countP Call.isBuild = 1 ∧ t.count (Call.SetTerminated Actor.User) = 0) ∧
      (5 ≤ i → t.countP Call.isBuild = 0 ∧ t.count (Call.SetTerminated Actor.User) = 1)) ∧
    (dispatches env imageURL providerName ws h).1.length = ws.length ∧
    ((dispatches env imageURL providerName ws h).1.map (List.countP Call.isBuild)).sum
      = min ws.length 5 := by
  obtain ⟨a, b⟩ := dispatches_failing env imageURL providerName ws h 0 (by simp [h0]) hws
  refine ⟨?_, ?_, by simpa using b⟩
  · intro i t hit
    simpa using a i t hit
  · clear a b h0 hws
    induction ws generalizing h with
    | nil => simp [dispatches]
    | cons w ws ih => simp [dispatches, ih]
theorem digitValue_digitChar (d : Nat) (hd : d < 10) : digitValue (digitChar d) = d := by
  interval_cases d <;> rfl

theorem digitChar_ne_minus (d : Nat) (hd : d < 10) : digitChar d ≠ Char.ofNat 45 := by
  interval_cases d <;> decide

theorem map_digitValue_digits (n : Nat) :
    ((Nat.digits 10 n).reverse.map digitChar).map digitValue = (Nat.digits 10 n).reverse := by
  rw [List.map_map]
  conv_rhs => rw [← List.map_id (Nat.digits 10 n).reverse]
  apply List.map_congr_left
  intro d hd
  have hd2 : d ∈ Nat.digits 10 n := by simpa using hd
  simpa using digitValue_digitChar d (Nat.digits_lt_base (by norm_num) hd2)

theorem fmtNat_pos (n : Nat) (hn : n ≠ 0) :
    (fmtNat n).map digitValue = (Nat.digits 10 n).reverse := by
  simp only [fmtNat, hn, if_false]
  exact map_digitValue_digits n

theorem fmtNat_injective (a b : Nat) (h : fmtNat a = fmtNat b) : a = b := by
  have hz : ∀ n : Nat, n ≠ 0 → fmtNat 0 ≠ fmtNat n := by
    intro n hn heq
    have h1 := congrArg (List.map digitValue) heq
    rw [fmtNat_pos n hn] at h1
    have h2 : Nat.digits 10 n = [0] := by
      have h3 := congrArg List.reverse h1
      rw [List.reverse_reverse] at h3
      rw [← h3]
      rfl
    have h4 := Nat.ofDigits_digits 10 n
    rw [h2] at h4
    simp at h4
    exact hn h4.symm
  by_cases ha : a = 0
  · by_cases hb : b = 0
    · rw [ha, hb]
    · subst ha; exact absurd h (hz b hb)
  · by_cases hb : b = 0
    · subst hb; exact absurd h.symm (hz a ha)
    · have h1 := congrArg (List.map digitValue) h
      rw [fmtNat_pos a ha, fmtNat_pos b hb] at h1
      exact Nat.digits_inj_iff.mp (List.reverse_injective h1)

theorem fmtNat_no_minus (n : Nat) : Char.ofNat 45 ∉ fmtNat n := by
  unfold fmtNat
  by_cases hn : n = 0
  · simp only [hn, if_true]; decide
  · simp only [hn, if_false, List.mem_map, List.mem_reverse, not_exists, not_and]
    intro d hd
    exact digitChar_ne_minus d (Nat.digits_lt_base (by norm_num) hd)

/-- The rendering `%d` tells integers apart. -/
theorem fmtD_injective (a b : Int) (h : fmtD a = fmtD b) : a = b := by
  replace h : (if a < 0 then Char.ofNat 45 :: fmtNat a.natAbs else fmtNat a.natAbs) =
      (if b < 0 then Char.ofNat 45 :: fmtNat b.natAbs else fmtNat b.natAbs) :=
    congrArg String.data h
  by_cases ha : a < 0 <;> by_cases hb : b < 0
  · simp only [ha, hb, if_true, List.cons.injEq, true_and] at h
    have := fmtNat_injective _ _ h
    omega
  · simp only [ha, hb, if_true, if_false] at h
    exact absurd (h ▸ List.mem_cons_self _ _) (fmtNat_no_minus _)
  · simp only [ha, hb, if_true, if_false] at h
    exact absurd (h ▸ List.mem_cons_self _ _) (fmtNat_no_minus _)
  · simp only [ha, hb, if_false] at h
    have := fmtNat_injective _ _ h
    omega

theorem sprintf_cancel (p x y s u : String) (h : p ++ x ++ s ++ u = p ++ y ++ s ++ u) :
    x = y := by
  have h1 := congrArg String.data h
  simp only [String.data_append, List.append_assoc] at h1
  exact String.ext (List.append_cancel_right (List.append_cancel_left h1))

/-- C10: the id of the job `NewBuildingContainerImageJob` returns is
`building-container-image.<host id>.attempt-<attempt in decimal>.<image URL>`, it
does not depend on the provider name (nor on the environment), and for one host
id and one image URL two attempt counts give the same id if and only if they
are equal. -/
theorem C10_job_id (env1 env2 : Environment) (ha hb : Host) (imageURL p1 p2 : String) :
    (NewBuildingContainerImageJob env1 ha imageURL p1).ID =
        "building-container-image" ++ "." ++ ha.Id ++ ".attempt-"
          ++ fmtD ha.ContainerBuildAttempt ++ "." ++ imageURL ∧
      (NewBuildingContainerImageJob env1 ha imageURL p1).ID =
        (NewBuildingContainerImageJob env2 ha imageURL p2).ID ∧
      ((NewBuildingContainerImageJob env1 ha imageURL p1).ID =
          (NewBuildingContainerImageJob env2 { hb with Id := ha.Id } imageURL p2).ID ↔
        ha.ContainerBuildAttempt = hb.ContainerBuildAttempt) := by
  refine ⟨rfl, rfl, ?_⟩
  constructor
  · intro h
    exact fmtD_injective _ _ (sprintf_cancel _ _ _ _ _ h)
  · intro h
    simp only [NewBuildingContainerImageJob, buildingContainerImageJob.ID, h]

/-- Sample renderings of `%d`. -/
theorem fmtD_samples : fmtD 0 = "0" ∧ fmtD 4 = "4" ∧ fmtD 12 = "12" ∧ fmtD (-3) = "-3" := by
  refine ⟨?_, ?_, ?_, ?_⟩ <;> simp [fmtD, fmtNat, digitChar]

/-- Witness for C4: seven dispatches against host `h1` from attempt 0, the build
failing each time. -/
theorem C4_retry_budget_witness :
    (∀ i t, (dispatches sampleEnv "ubuntu:latest" "docker" (List.replicate 7 buildFails)
        (sampleHost 0)).1[i]? = some t →
      (i < 5 → t.countP Call.isBuild = 1 ∧ t.count (Call.SetTerminated Actor.User) = 0) ∧
      (5 ≤ i → t.countP Call.isBuild = 0 ∧ t.count (Call.SetTerminated Actor.User) = 1)) ∧
    (dispatches sampleEnv "ubuntu:latest" "docker" (List.replicate 7 buildFails)
      (sampleHost 0)).1.length = (List.replicate 7 buildFails).length ∧
    ((dispatches sampleEnv "ubuntu:latest" "docker" (List.replicate 7 buildFails)
      (sampleHost 0)).1.map (List.countP Call.isBuild)).sum
      = min (List.replicate 7 buildFails).length 5 :=
  C4_retry_budget sampleEnv "ubuntu:latest" "docker" (List.replicate 7 buildFails)
    (sampleHost 0) (by decide)
    (by
      intro w hw
      rw [List.eq_of_mem_replicate hw]
      exact ⟨rfl, rfl, ⟨_, rfl⟩, rfl⟩)

end Evergreen
